import Mathlib

/-!
Verification of the Customer Churn InsightLab inference-and-explainability
engine and of its React dashboard logic.

The repository ships the dashboard sources (`frontend/src/App.jsx`); the
backend engine (`backend/app/main.py`) is absent from the checkout, so the
engine definitions below are modelled from the specification's component
design (spec sections 3, 4.1 to 4.6 and 7), while the frontend definitions
are transcribed from `App.jsx`.

Real arithmetic of the engine is embedded over `ℚ`: rational arithmetic is
exact, so "within floating-point tolerance" statements become exact
equalities or disequalities.  The logistic link `p = 1 / (1 + exp (-s))`
is transcendental, hence not exactly representable over `ℚ`; the
orchestrator is therefore parametric in the link function `σ`, and every
theorem about it holds for an arbitrary link.
-/

attribute [local semireducible] Rat.mul Rat.add Rat.sub Rat.inv

namespace ChurnInsightLab

/-! ## Risk classifier (spec 4.4) -/

/-- Ordinal risk bucket, spec section 3 (`RiskTier`). -/
inductive RiskTier where
  | low
  | moderate
  | high
deriving DecidableEq

/-- Modelled from the spec: lower tier boundary, a configuration constant
(spec 4.4). -/
def lowBoundary : ℚ := 3 / 10

/-- Modelled from the spec: upper tier boundary, a configuration constant
(spec 4.4). -/
def highBoundary : ℚ := 7 / 10

/-- Modelled from the spec: `tier(probability) -> RiskTier` of spec 4.4,
`probability < 0.3 -> low`, `0.3 <= probability < 0.7 -> moderate`,
`probability >= 0.7 -> high`. -/
def tier (probability : ℚ) : RiskTier :=
  if probability < lowBoundary then .low
  else if probability < highBoundary then .moderate
  else .high

/-! ## Linear scorer (spec 4.2) -/

/-- Modelled from the spec: dot product of the transformed vector with the
weight vector, the recursive core of the linear scorer (spec 4.2). -/
def dot : List ℚ → List ℚ → ℚ
  | x :: v, y :: w => x * y + dot v w
  | _, _ => 0

/-- Modelled from the spec: `score(vector, weights, bias) -> raw_score`,
the dot product of vector and weights plus bias (spec 4.2). -/
def score (vector weights : List ℚ) (bias : ℚ) : ℚ :=
  dot vector weights + bias

/-- Modelled from the spec: `predict(p, threshold) -> 0|1`, a pure
threshold comparison, `1 if probability >= threshold else 0` (spec 3). -/
def predict (p threshold : ℚ) : Nat :=
  if threshold ≤ p then 1 else 0

/-! ## Contribution engine (spec 4.3) -/

/-- Modelled from the spec: per-feature signed contributions,
`signed_value[i] = vector[i] * weights[i]` (spec 4.3). -/
def signedValues (vector weights : List ℚ) : List ℚ :=
  List.zipWith (· * ·) vector weights

/-- Modelled from the spec: contribution direction,
`"increases_churn" if signed_value > 0 else "decreases_churn"`;
a contribution of exactly 0 is `decreases_churn` by convention (spec 4.3). -/
def direction (signed_value : ℚ) : String :=
  if 0 < signed_value then "increases_churn" else "decreases_churn"

/-- Modelled from the spec: the reported `impact` is the absolute
signed value rounded to 4 decimal places (spec 4.3). -/
def roundImpact (q : ℚ) : ℚ :=
  (round (q * 10000) : ℤ) / 10000

/-- One per-row explanation entry (spec 3, `Contribution`); the `feature`,
`direction`, `impact` field names match the response schema of spec 6. -/
structure Contribution where
  feature : String
  signed_value : ℚ
  direction : String
  impact : ℚ
deriving DecidableEq

/-- Modelled from the spec: the contribution record built for feature
number `i` named `name`, with transformed value `x` and weight `wt`
(spec 4.3). -/
def contributionOf (name : String) (x wt : ℚ) : Contribution :=
  { feature := name
    signed_value := x * wt
    direction := direction (x * wt)
    impact := roundImpact |x * wt| }

/-! ### Ranking by absolute impact with first-seen tie-break

The spec (4.3, 4.5) sorts descending by an absolute magnitude and breaks
ties by the feature's position in `ordered_feature_names`.  We model this
with an insertion sort whose strict "comes before" relation compares the
key `(magnitude, position)`: larger magnitude first, and among equal
magnitudes the smaller position first. -/

/-- Strict "`a` is ranked before `b`" relation on a magnitude/position
key: descending magnitude, ties broken by ascending position. -/
def rankBefore (key : α → ℚ × Nat) (a b : α) : Prop :=
  (key b).1 < (key a).1 ∨ ((key a).1 = (key b).1 ∧ (key a).2 < (key b).2)

instance (key : α → ℚ × Nat) : DecidableRel (rankBefore key) := fun a b => by
  unfold rankBefore
  infer_instance

/-- Insert one element into a list already ranked by `rankBefore key`. -/
def insertRanked (key : α → ℚ × Nat) (x : α) : List α → List α
  | [] => [x]
  | y :: ys => if rankBefore key x y then x :: y :: ys else y :: insertRanked key x ys

/-- Insertion sort by `rankBefore key`: descending magnitude, ties broken
by ascending position (stable, deterministic, first-seen wins). -/
def sortRanked (key : α → ℚ × Nat) : List α → List α
  | [] => []
  | x :: xs => insertRanked key x (sortRanked key xs)

/-- Modelled from the spec: the per-feature contribution list of one row,
tagged with each feature's position in `ordered_feature_names`, before any
sorting or truncation (spec 4.3). -/
def taggedContributions (vector weights : List ℚ) (names : List String) :
    List (Nat × Contribution) :=
  (vector.zip (weights.zip names)).enum.map fun p =>
    (p.1, contributionOf p.2.2.2 p.2.1 p.2.2.1)

/-- Ranking key of a tagged contribution: absolute signed value, then the
feature's position (spec 4.3). -/
def contribKey (p : Nat × Contribution) : ℚ × Nat :=
  (|p.2.signed_value|, p.1)

/-- Modelled from the spec: the row's contributions sorted descending by
absolute signed value, ties broken by feature position (spec 4.3). -/
def rankedContributions (vector weights : List ℚ) (names : List String) :
    List (Nat × Contribution) :=
  sortRanked contribKey (taggedContributions vector weights names)

/-- Modelled from the spec:
`explain(vector, weights, feature_names, k)` — contributions sorted
descending by absolute signed value with positional tie-break, truncated
to the first `k` (spec 4.3). -/
def explain (vector weights : List ℚ) (names : List String) (k : Nat) :
    List Contribution :=
  ((rankedContributions vector weights names).take k).map Prod.snd

/-! ## Aggregator (spec 4.5) -/

/-- One entry of the global feature-importance ranking (spec 3,
`GlobalImportance`). -/
structure ImportanceEntry where
  feature : String
  importance : ℚ
deriving DecidableEq

/-- Modelled from the spec: `importance = abs(weight)` per feature, tagged
with the feature's position, before sorting (spec 3, 4.5). -/
def taggedImportance (weights : List ℚ) (names : List String) :
    List (Nat × ImportanceEntry) :=
  (names.zip weights).enum.map fun p =>
    (p.1, { feature := p.2.1, importance := |p.2.2| })

/-- Ranking key of a tagged importance entry: the absolute weight, then
the feature's position (spec 4.5). -/
def impKey (p : Nat × ImportanceEntry) : ℚ × Nat :=
  (p.2.importance, p.1)

/-- Modelled from the spec: the tagged importance entries sorted by
`abs(weight)` descending, same tie-break rule as the contribution engine
(spec 4.5). -/
def rankedImportance (weights : List ℚ) (names : List String) :
    List (Nat × ImportanceEntry) :=
  sortRanked impKey (taggedImportance weights names)

/-- Modelled from the spec:
`global_importance(weights, feature_names) -> ordered sequence, sorted by
abs(weight) descending` with positional tie-break (spec 4.5). -/
def global_importance (weights : List ℚ) (names : List String) :
    List ImportanceEntry :=
  (rankedImportance weights names).map Prod.snd

/-! ## Feature transformer (spec 4.1) and error taxonomy (spec 7) -/

/-- Raw cell value of an input row: string, number, or missing
(spec 3, `RawRow`). -/
inductive RawValue where
  | str (s : String)
  | num (q : ℚ)
  | missing
deriving DecidableEq

/-- Mapping from original column name to raw value (spec 3, `RawRow`). -/
abbrev RawRow := List (String × RawValue)

/-- One transformation rule of `transform_spec` (spec 3): a one-hot
categorical rule or a numeric scale-and-offset rule. -/
inductive TransformRule where
  | categorical (column : String) (categories : List String)
  | numeric (column : String) (offset scale : ℚ)
deriving DecidableEq

/-- Per-input-column transformation rules in fit-time order (spec 3). -/
abbrev TransformSpec := List TransformRule

/-- Error taxonomy of spec 7. -/
inductive EngineError where
  | schemaError (column : String)
  | typeError (column : String)
  | configError (param : String)
  | emptyDatasetError
deriving DecidableEq

/-- Modelled from the spec: the transformed-feature names one rule
contributes — one name per known category for a categorical rule, the
column name itself for a numeric rule (spec 4.1). -/
def ruleFeatureNames : TransformRule → List String
  | .categorical col cats => cats.map fun c => col ++ "_" ++ c
  | .numeric col _ _ => [col]

/-- Modelled from the spec: `ordered_feature_names`, the post-transform
feature ordering fixed by `transform_spec` (spec 3, 4.1). -/
def featureNames (spec : TransformSpec) : List String :=
  (spec.map ruleFeatureNames).flatten

/-- Modelled from the spec: the block of output features one rule produces
for one row — `SchemaError` if the required column is absent; a one-hot
block (all zeros for an unseen category, no error) for a categorical rule;
`(raw - offset) / scale` for a numeric rule, with a missing numeric value
imputed to the training-time mean pre-baked into `offset` (hence 0 after
centering) and `TypeError` on a non-numeric value (spec 4.1). -/
def transformRule (row : RawRow) : TransformRule → Except EngineError (List ℚ)
  | .categorical col cats =>
    match row.lookup col with
    | none => .error (.schemaError col)
    | some v => .ok (cats.map fun c => if v = .str c then 1 else 0)
  | .numeric col offset scale =>
    match row.lookup col with
    | none => .error (.schemaError col)
    | some (.num q) => .ok [(q - offset) / scale]
    | some .missing => .ok [0]
    | some (.str _) => .error (.typeError col)

/-- Modelled from the spec: `transform(raw_row, transform_spec) ->
TransformedVector`, concatenating each rule's output block in fit-time
order, failing with the first rule's `SchemaError`/`TypeError` (spec 4.1). -/
def transform (row : RawRow) : TransformSpec → Except EngineError (List ℚ)
  | [] => .ok []
  | rule :: rest =>
    match transformRule row rule with
    | .error e => .error e
    | .ok block =>
      match transform row rest with
      | .error e => .error e
      | .ok blocks => .ok (block ++ blocks)

/-! ## Orchestrator (spec 4.6) -/

/-- The immutable fitted artifact (spec 3, `FittedPipeline`);
`ordered_feature_names` is derived from `transform_spec` by
`featureNames`. -/
structure FittedPipeline where
  transform_spec : TransformSpec
  weights : List ℚ
  bias : ℚ
deriving DecidableEq

/-- One scored output row of the response (spec 6, `predictions`
entries). -/
structure Prediction where
  customerID : Option RawValue
  churn_probability : ℚ
  churn_prediction : Nat
  risk_tier : RiskTier
  top_drivers : List Contribution
deriving DecidableEq

/-- One surfaced row-level failure (spec 6, `row_errors` entries). -/
structure RowError where
  row_index : Nat
  reason : EngineError
deriving DecidableEq

/-- Dataset-level KPIs (spec 3, `KPI summary`). -/
structure KPISummary where
  total_customers : Nat
  predicted_churners : Nat
  predicted_churn_rate : ℚ
deriving DecidableEq

/-- The structured result object (spec 6). -/
structure PredictionResult where
  predictions : List Prediction
  kpis : KPISummary
  global_importance : List ImportanceEntry
  row_errors : List RowError
deriving DecidableEq

/-- Modelled from the spec: scoring of one raw row — transform, score,
link to a probability through `σ`, threshold and tier, and explain
(spec 4.6 composing 4.1 to 4.4); the only failure source is the
transformer. -/
def scoreRow (σ : ℚ → ℚ) (pipeline : FittedPipeline) (threshold : ℚ)
    (k : Nat) (row : RawRow) : Except EngineError Prediction :=
  match transform row pipeline.transform_spec with
  | .error e => .error e
  | .ok vector =>
    let raw_score := score vector pipeline.weights pipeline.bias
    let p := σ raw_score
    .ok { customerID := row.lookup "customerID"
          churn_probability := p
          churn_prediction := predict p threshold
          risk_tier := tier p
          top_drivers := explain vector pipeline.weights
            (featureNames pipeline.transform_spec) k }

/-- Modelled from the spec: scoring of the whole batch starting at row
index `i` — a failing row is excluded from the scored output and recorded
in the error list while the batch continues (spec 4.6, 7). -/
def scoreAll (σ : ℚ → ℚ) (pipeline : FittedPipeline) (threshold : ℚ)
    (k : Nat) : List RawRow → Nat → List Prediction × List RowError
  | [], _ => ([], [])
  | row :: rest, i =>
    let tail := scoreAll σ pipeline threshold k rest (i + 1)
    match scoreRow σ pipeline threshold k row with
    | .ok p => (p :: tail.1, tail.2)
    | .error e => (tail.1, { row_index := i, reason := e } :: tail.2)

/-- Modelled from the spec: `summarize(scored_rows) -> KPI summary`,
failing with `EmptyDatasetError`, not division by zero, when
`total_customers == 0` (spec 4.5). -/
def summarize (scored : List Prediction) : Except EngineError KPISummary :=
  if scored.length = 0 then .error .emptyDatasetError
  else
    .ok { total_customers := scored.length
          predicted_churners := (scored.filter fun p => p.churn_prediction = 1).length
          predicted_churn_rate :=
            ((scored.filter fun p => p.churn_prediction = 1).length : ℚ) /
              (scored.length : ℚ) }

/-- Modelled from the spec:
`run(raw_rows, pipeline, threshold, k, limit) -> PredictionResult` —
configuration validation first (batch-fatal `ConfigError`, spec 4.2, 6,
7), then the full scored set, then aggregation over the full set, and only
then truncation of the prediction list to `limit` entries (spec 4.6). -/
def run (σ : ℚ → ℚ) (raw_rows : List RawRow) (pipeline : FittedPipeline)
    (threshold : ℚ) (k limit : Nat) : Except EngineError PredictionResult :=
  if threshold < 0 ∨ 1 < threshold then .error (.configError "threshold")
  else if limit = 0 then .error (.configError "limit")
  else
    match scoreAll σ pipeline threshold k raw_rows 0 with
    | (scored, errs) =>
      match summarize scored with
      | .error e => .error e
      | .ok kpis =>
        .ok { predictions := scored.take limit
              kpis := kpis
              global_importance := global_importance pipeline.weights
                (featureNames pipeline.transform_spec)
              row_errors := errs }

/-! ## Frontend (`frontend/src/App.jsx`) -/

/-- One prediction row as the dashboard receives it from the API response
(`App.jsx`, rendering of `data.predictions`). -/
structure FrontRow where
  customerID : String
  churn_probability : ℚ
  churn_prediction : Nat
  risk_tier : String
  top_drivers : List Contribution
deriving DecidableEq

/-- The risk-filter logic of `App.jsx` (`filteredRows`): identity when the
filter is `"all"`, otherwise keep exactly the rows whose `risk_tier`
equals the selected tier. -/
def filteredRows (riskFilter : String) (rows : List FrontRow) : List FrontRow :=
  if riskFilter = "all" then rows
  else rows.filter fun r => r.risk_tier == riskFilter

/-- The row-limit options offered by the `Rows` select of `App.jsx`. -/
def limitOptions : List Nat := [25, 50, 100, 200]

/-- The initial row limit, `useState(50)` in `App.jsx`. -/
def initialLimit : Nat := 50

/-- The initial risk filter, `useState("all")` in `App.jsx`. -/
def initialRiskFilter : String := "all"

/-- The query string built by `onPredict` in `App.jsx`. -/
def predictQuery (limit : Nat) : String :=
  "threshold=0.5&top_k=3&limit=" ++ toString limit ++
    "&include_drivers=true&include_predictions=true"

/-- The request URL built by `onPredict` in `App.jsx`. -/
def buildPredictUrl (apiBase : String) (limit : Nat) : String :=
  apiBase ++ "/predict/churn?" ++ predictQuery limit

/-- The driver tag rendered by `DriverList` in `App.jsx`: `"↑ churn"` for
direction `"increases_churn"`, `"↓ churn"` for anything else. -/
def driverTagLabel (d : String) : String :=
  if d = "increases_churn" then "↑ churn" else "↓ churn"

/-! ### Query-string reading, used to state what the request URL fixes -/

/-- Splitting a character list at every occurrence of `c`. -/
def splitOnChar (c : Char) : List Char → List (List Char)
  | [] => [[]]
  | x :: xs =>
    match splitOnChar c xs with
    | [] => [[x]]
    | ys :: rest => if x = c then [] :: ys :: rest else (x :: ys) :: rest

/-- Reading one `key=value` component of a query string. -/
def readParam (kv : List Char) : String × String :=
  match splitOnChar '=' kv with
  | k :: v :: _ => (String.mk k, String.mk v)
  | _ => (String.mk kv, "")

/-- Reading a query string into its `key=value` pairs. -/
def readQuery (s : String) : List (String × String) :=
  (splitOnChar '&' s.data).map readParam

/-! ### Row-level success predicate and concrete fixtures -/

/-- Whether the transformer accepts a row — the only failure source of
per-row scoring (spec 4.6, 7). -/
def transformOk (spec : TransformSpec) (row : RawRow) : Bool :=
  (transform row spec).isOk

/-- The identity link, one concrete instantiation of the monotone link
parameter `σ`. -/
def idLink : ℚ → ℚ := fun s => s

/-- A concrete one-feature fitted pipeline used to instantiate the
orchestrator theorems. -/
def samplePipeline : FittedPipeline :=
  { transform_spec := [.numeric "tenure" 0 1], weights := [1], bias := 0 }

/-- A concrete batch of ten raw rows in which exactly one row (index 4) is
missing the required `tenure` column — the spec section-8 scenario. -/
def sampleRows : List RawRow :=
  [[("tenure", .num 1)], [("tenure", .num 2)], [("tenure", .num 3)],
   [("tenure", .num 4)], [("other", .str "x")], [("tenure", .num 5)],
   [("tenure", .num 6)], [("tenure", .num 7)], [("tenure", .num 8)],
   [("tenure", .num 9)]]

/-- Concrete frontend rows used to instantiate the risk-filter theorem: a
high-risk row, a low-risk row, and a row with an unknown tier string. -/
def sampleFrontRows : List FrontRow :=
  [{ customerID := "a", churn_probability := 9/10, churn_prediction := 1,
     risk_tier := "high", top_drivers := [] },
   { customerID := "b", churn_probability := 1/10, churn_prediction := 0,
     risk_tier := "low", top_drivers := [] },
   { customerID := "c", churn_probability := 1/2, churn_prediction := 1,
     risk_tier := "weird", top_drivers := [] }]

end ChurnInsightLab

namespace ChurnInsightLab

/-! ## Ranking lemmas -/

theorem rankBefore_asymm {key : α → ℚ × Nat} {a b : α}
    (h : rankBefore key a b) : ¬ rankBefore key b a := by
  rcases h with h1 | ⟨he, h2⟩ <;> rintro (h1' | ⟨he', h2'⟩)
  · exact absurd (lt_trans h1 h1') (lt_irrefl _)
  · exact absurd h1 (he' ▸ lt_irrefl _)
  · exact absurd h1' (he ▸ lt_irrefl _)
  · omega

theorem rankBefore_trans {key : α → ℚ × Nat} {a b c : α}
    (hab : rankBefore key a b) (hbc : rankBefore key b c) :
    rankBefore key a c := by
  rcases hab with h1 | ⟨he, h2⟩ <;> rcases hbc with h1' | ⟨he', h2'⟩
  · exact Or.inl (lt_trans h1' h1)
  · exact Or.inl (he' ▸ h1)
  · exact Or.inl (he ▸ h1')
  · exact Or.inr ⟨he.trans he', by omega⟩

theorem rankBefore_total_of_ne {key : α → ℚ × Nat} {a b : α}
    (h : (key a).2 ≠ (key b).2) :
    rankBefore key a b ∨ rankBefore key b a := by
  rcases lt_trichotomy (key a).1 (key b).1 with h1 | h1 | h1
  · exact Or.inr (Or.inl h1)
  · rcases Nat.lt_or_ge (key a).2 (key b).2 with h2 | h2
    · exact Or.inl (Or.inr ⟨h1, h2⟩)
    · exact Or.inr (Or.inr ⟨h1.symm, by omega⟩)
  · exact Or.inl (Or.inl h1)

theorem mem_insertRanked {key : α → ℚ × Nat} {x z : α} {l : List α} :
    z ∈ insertRanked key x l ↔ z = x ∨ z ∈ l := by
  induction l with
  | nil => simp [insertRanked]
  | cons y ys ih =>
    by_cases h : rankBefore key x y
    · simp [insertRanked, h]
    · simp only [insertRanked, if_neg h, List.mem_cons, ih]
      tauto

theorem perm_insertRanked (key : α → ℚ × Nat) (x : α) (l : List α) :
    (insertRanked key x l).Perm (x :: l) := by
  induction l with
  | nil => simp [insertRanked]
  | cons y ys ih =>
    by_cases h : rankBefore key x y
    · simp [insertRanked, h]
    · rw [insertRanked, if_neg h]
      exact (ih.cons y).trans (List.Perm.swap x y ys)

theorem perm_sortRanked (key : α → ℚ × Nat) (l : List α) :
    (sortRanked key l).Perm l := by
  induction l with
  | nil => simp [sortRanked]
  | cons x xs ih =>
    exact (perm_insertRanked key x (sortRanked key xs)).trans (ih.cons x)

theorem pairwise_insertRanked {key : α → ℚ × Nat} {x : α} {l : List α}
    (h : l.Pairwise fun a b => ¬ rankBefore key b a) :
    (insertRanked key x l).Pairwise fun a b => ¬ rankBefore key b a := by
  induction l with
  | nil => simp [insertRanked]
  | cons y ys ih =>
    obtain ⟨hy, hys⟩ := List.pairwise_cons.mp h
    by_cases hxy : rankBefore key x y
    · rw [insertRanked, if_pos hxy]
      refine List.Pairwise.cons ?_ h
      intro z hz
      rcases List.mem_cons.mp hz with rfl | hz'
      · exact rankBefore_asymm hxy
      · exact fun hzx => hy z hz' (rankBefore_trans hzx hxy)
    · rw [insertRanked, if_neg hxy]
      refine List.Pairwise.cons ?_ (ih hys)
      intro z hz
      rcases mem_insertRanked.mp hz with rfl | hz'
      · exact hxy
      · exact hy z hz'

theorem pairwise_sortRanked (key : α → ℚ × Nat) (l : List α) :
    (sortRanked key l).Pairwise fun a b => ¬ rankBefore key b a := by
  induction l with
  | nil => simp [sortRanked]
  | cons x xs ih => exact pairwise_insertRanked ih

theorem pairwise_rankBefore_sortRanked {key : α → ℚ × Nat} {l : List α}
    (hpos : l.Pairwise fun a b => (key a).2 ≠ (key b).2) :
    (sortRanked key l).Pairwise (rankBefore key) := by
  have h1 := pairwise_sortRanked key l
  have h2 : (sortRanked key l).Pairwise fun a b => (key a).2 ≠ (key b).2 :=
    (List.Perm.pairwise_iff (fun h => h.symm) (perm_sortRanked key l)).mpr hpos
  refine (h1.and h2).imp ?_
  rintro a b ⟨hnb, hne⟩
  rcases rankBefore_total_of_ne hne with h | h
  · exact h
  · exact absurd h hnb

theorem pairwise_fst_lt_enum (l : List α) :
    l.enum.Pairwise fun a b => a.1 < b.1 := by
  have h := List.pairwise_lt_range l.length
  rw [← List.enum_map_fst l] at h
  exact List.pairwise_map.mp h

end ChurnInsightLab

namespace ChurnInsightLab

/-! ## Supporting lemmas for the linear decomposition -/

theorem signedValues_sum_eq_dot (v w : List ℚ) :
    (signedValues v w).sum = dot v w := by
  induction v generalizing w with
  | nil => cases w <;> simp [signedValues, dot]
  | cons x v ih =>
    cases w with
    | nil => simp [signedValues, dot]
    | cons y w => simp [signedValues, dot, ← ih]

theorem map_mul_zip_eq_signedValues (v w : List ℚ) (names : List String)
    (hv : v.length = names.length) (hw : w.length = names.length) :
    ((v.zip (w.zip names)).map fun t => t.1 * t.2.1) = signedValues v w := by
  induction v generalizing w names with
  | nil => simp [signedValues]
  | cons x v ih =>
    cases names with
    | nil => simp at hv
    | cons n names =>
      cases w with
      | nil => simp at hw
      | cons y w =>
        simp only [List.zip_cons_cons, List.map_cons, signedValues,
          List.zipWith_cons_cons]
        exact congrArg _ (ih w names (by simpa using hv) (by simpa using hw))

theorem taggedContributions_map_signed (v w : List ℚ) (names : List String) :
    ((taggedContributions v w names).map fun p => p.2.signed_value)
      = (v.zip (w.zip names)).map fun t => t.1 * t.2.1 := by
  unfold taggedContributions
  rw [List.map_map]
  show List.map ((fun t : ℚ × ℚ × String => t.1 * t.2.1) ∘ Prod.snd) _ = _
  rw [← List.map_map, List.enum_map_snd]

end ChurnInsightLab

namespace ChurnInsightLab

/-- C2: `tier(probability)` is a pure deterministic function with fixed
boundaries: `p < 0.3` yields `low`, `0.3 ≤ p < 0.7` yields `moderate`,
`p ≥ 0.7` yields `high`; the boundary values `0.3` and `0.7` map to
`moderate` and `high` (inclusive on the lower edge), and two calls on the
same probability always yield the same tier. -/
theorem tier_pure_fixed_boundaries :
    (∀ p : ℚ, (tier p = .low ↔ p < 3 / 10)
      ∧ (tier p = .moderate ↔ 3 / 10 ≤ p ∧ p < 7 / 10)
      ∧ (tier p = .high ↔ 7 / 10 ≤ p))
    ∧ tier (3 / 10) = .moderate
    ∧ tier (7 / 10) = .high
    ∧ ∀ p : ℚ, tier p = tier p := by
  refine ⟨fun p => ?_, by decide, by decide, fun p => rfl⟩
  unfold tier lowBoundary highBoundary
  split_ifs with h1 h2 <;>
    refine ⟨⟨fun _ => ?_, fun _ => ?_⟩, ⟨fun _ => ?_, fun _ => ?_⟩,
      ⟨fun _ => ?_, fun _ => ?_⟩⟩ <;>
    first
      | rfl
      | linarith
      | simp_all

/-- C1, counterexample: at the spec's own section-8 scenario (vector
`[1, 0.5, 2]`, weights `[-0.5, -0.8, 0.6]`, bias `0.1`) the per-feature
signed contributions sum to `0.3` while `score` returns `0.4`, so the
claimed identity `sum(signed_value) = raw_score` fails whenever the bias
is non-zero — even with exact arithmetic, hence beyond any floating-point
tolerance. -/
theorem contributions_sum_ne_raw_score :
    ¬ (signedValues [1, 1/2, 2] [-1/2, -4/5, 3/5]).sum
        = score [1, 1/2, 2] [-1/2, -4/5, 3/5] (1/10) := by
  decide

/-- C1, amended: the per-feature signed contributions produced by the
contribution engine sum, over all features before any truncation (both in
original order and after ranking), to `raw_score - bias`, that is,
`sum(signed_value) + bias = score(vector, weights, bias)` — the linear
decomposition is exact up to the bias term. -/
theorem contributions_sum_add_bias_eq_raw_score (v w : List ℚ)
    (names : List String) (b : ℚ)
    (hv : v.length = names.length) (hw : w.length = names.length) :
    (((taggedContributions v w names).map fun p => p.2.signed_value).sum + b
        = score v w b)
    ∧ (((rankedContributions v w names).map fun p => p.2.signed_value).sum + b
        = score v w b)
    ∧ ((signedValues v w).sum + b = score v w b) := by
  have hbase : ((taggedContributions v w names).map fun p => p.2.signed_value).sum
      = dot v w := by
    rw [taggedContributions_map_signed, map_mul_zip_eq_signedValues v w names hv hw,
      signedValues_sum_eq_dot]
  have hperm : (((rankedContributions v w names).map fun p => p.2.signed_value)).Perm
      ((taggedContributions v w names).map fun p => p.2.signed_value) :=
    (perm_sortRanked contribKey (taggedContributions v w names)).map _
  refine ⟨?_, ?_, ?_⟩
  · rw [hbase]; rfl
  · rw [hperm.sum_eq, hbase]; rfl
  · rw [signedValues_sum_eq_dot]; rfl

/-- C1, witness for the amended theorem at the spec's section-8 scenario. -/
theorem contributions_sum_add_bias_eq_raw_score_witness :
    (((taggedContributions [1, 1/2, 2] [-1/2, -4/5, 3/5]
          ["age", "tenure", "monthly_charges"]).map
        fun p => p.2.signed_value).sum + 1/10
        = score [1, 1/2, 2] [-1/2, -4/5, 3/5] (1/10))
    ∧ (((rankedContributions [1, 1/2, 2] [-1/2, -4/5, 3/5]
          ["age", "tenure", "monthly_charges"]).map
        fun p => p.2.signed_value).sum + 1/10
        = score [1, 1/2, 2] [-1/2, -4/5, 3/5] (1/10))
    ∧ ((signedValues [1, 1/2, 2] [-1/2, -4/5, 3/5]).sum + 1/10
        = score [1, 1/2, 2] [-1/2, -4/5, 3/5] (1/10)) :=
  contributions_sum_add_bias_eq_raw_score [1, 1/2, 2] [-1/2, -4/5, 3/5]
    ["age", "tenure", "monthly_charges"] (1/10) (by decide) (by decide)

end ChurnInsightLab

namespace ChurnInsightLab

/-! ## Length lemmas for the contribution engine -/

theorem taggedContributions_length (v w : List ℚ) (names : List String) :
    (taggedContributions v w names).length
      = min v.length (min w.length names.length) := by
  simp [taggedContributions]

theorem rankedContributions_length (v w : List ℚ) (names : List String) :
    (rankedContributions v w names).length
      = min v.length (min w.length names.length) := by
  unfold rankedContributions
  rw [(perm_sortRanked contribKey (taggedContributions v w names)).length_eq]
  exact taggedContributions_length v w names

/-- C6: for every vector of N features and every `k ≥ 0`,
`explain(vector, weights, feature_names, k)` returns exactly
`min k N` contributions and never errors on boundary values of `k`:
`k = 0` yields the empty list and `k` greater than `N` yields all `N`
features. -/
theorem explain_length_min (v w : List ℚ) (names : List String) (k : Nat)
    (hv : v.length = names.length) (hw : w.length = names.length) :
    (explain v w names k).length = min k names.length
    ∧ explain v w names 0 = []
    ∧ (names.length ≤ k → (explain v w names k).length = names.length) := by
  have hlen : (explain v w names k).length = min k names.length := by
    simp [explain, rankedContributions_length, hv, hw]
  refine ⟨hlen, by simp [explain], fun hk => ?_⟩
  rw [hlen]
  omega

/-- C6, witness at a three-feature row with `k = 0`, `k = 2` and `k = 7`. -/
theorem explain_length_min_witness :
    ((explain [1, 1/2, 2] [-1/2, -4/5, 3/5] ["age", "tenure", "monthly_charges"] 7).length
        = min 7 (["age", "tenure", "monthly_charges"] : List String).length
      ∧ explain [1, 1/2, 2] [-1/2, -4/5, 3/5] ["age", "tenure", "monthly_charges"] 0 = []
      ∧ ((["age", "tenure", "monthly_charges"] : List String).length ≤ 7 →
          (explain [1, 1/2, 2] [-1/2, -4/5, 3/5] ["age", "tenure", "monthly_charges"] 7).length
            = (["age", "tenure", "monthly_charges"] : List String).length)) :=
  explain_length_min [1, 1/2, 2] [-1/2, -4/5, 3/5]
    ["age", "tenure", "monthly_charges"] 7 (by decide) (by decide)

/-- C7: both the contribution engine and the global-importance ranking
order their output descending by absolute value (absolute signed value
per row, absolute weight globally) and break ties on equal absolute value
by the feature's position (first-seen wins); each ranked list is a
permutation of the untruncated per-feature list, so the ordering is fully
determined — hence deterministic and identical across runs — on the same
inputs. -/
theorem explain_global_importance_ordering (v w : List ℚ)
    (names : List String) (w' : List ℚ) (names' : List String) :
    ((rankedContributions v w names).Pairwise fun a b =>
        |b.2.signed_value| < |a.2.signed_value|
        ∨ (|a.2.signed_value| = |b.2.signed_value| ∧ a.1 < b.1))
    ∧ (rankedContributions v w names).Perm (taggedContributions v w names)
    ∧ ((rankedImportance w' names').Pairwise fun a b =>
        b.2.importance < a.2.importance
        ∨ (a.2.importance = b.2.importance ∧ a.1 < b.1))
    ∧ (rankedImportance w' names').Perm (taggedImportance w' names') := by
  have hc : (taggedContributions v w names).Pairwise
      fun a b => (contribKey a).2 ≠ (contribKey b).2 := by
    unfold taggedContributions
    rw [List.pairwise_map]
    exact (pairwise_fst_lt_enum _).imp fun h => Nat.ne_of_lt h
  have hi : (taggedImportance w' names').Pairwise
      fun a b => (impKey a).2 ≠ (impKey b).2 := by
    unfold taggedImportance
    rw [List.pairwise_map]
    exact (pairwise_fst_lt_enum _).imp fun h => Nat.ne_of_lt h
  refine ⟨?_, perm_sortRanked _ _, ?_, perm_sortRanked _ _⟩
  · exact (pairwise_rankBefore_sortRanked hc).imp fun h => h
  · exact (pairwise_rankBefore_sortRanked hi).imp fun h => h

/-- C8: a contribution's direction is `"increases_churn"` exactly when its
signed value is positive, a signed value of exactly 0 is classified as
`"decreases_churn"` by convention, and the frontend `DriverList` renders
every direction other than `"increases_churn"` as the decreases-churn
`"↓ churn"` tag. -/
theorem direction_positive_and_driver_tag (sv : ℚ) (d : String)
    (hd : d ≠ "increases_churn") :
    (direction sv = "increases_churn" ↔ 0 < sv)
    ∧ direction 0 = "decreases_churn"
    ∧ driverTagLabel "increases_churn" = "↑ churn"
    ∧ driverTagLabel d = "↓ churn" := by
  refine ⟨?_, by decide, by decide, ?_⟩
  · unfold direction
    by_cases h : 0 < sv
    · simp [h]
    · simp [h]
  · unfold driverTagLabel
    rw [if_neg hd]

/-- C8, witness at signed value `5` and direction `"decreases_churn"`. -/
theorem direction_positive_and_driver_tag_witness :
    (direction 5 = "increases_churn" ↔ (0 : ℚ) < 5)
    ∧ direction 0 = "decreases_churn"
    ∧ driverTagLabel "increases_churn" = "↑ churn"
    ∧ driverTagLabel "decreases_churn" = "↓ churn" :=
  direction_positive_and_driver_tag 5 "decreases_churn" (by decide)

/-- C10: the frontend `filteredRows` is the identity on the prediction
list when the filter is `"all"`; for any other filter it is exactly the
subsequence of predictions whose `risk_tier` equals the selected tier,
preserving original order; and a prediction whose `risk_tier` matches none
of `"low"`, `"moderate"`, `"high"` appears under no tier-specific
filter. -/
theorem filteredRows_risk_filter (rows : List FrontRow) (f : String)
    (r : FrontRow) (hf : f ≠ "all") :
    filteredRows "all" rows = rows
    ∧ filteredRows f rows = rows.filter (fun row => row.risk_tier == f)
    ∧ (filteredRows f rows).Sublist rows
    ∧ (r ∈ filteredRows f rows ↔ r ∈ rows ∧ r.risk_tier = f)
    ∧ (r ∈ rows → r.risk_tier ∉ (["low", "moderate", "high"] : List String) →
        f ∈ (["low", "moderate", "high"] : List String) →
        r ∉ filteredRows f rows) := by
  have heq : filteredRows f rows = rows.filter fun row => row.risk_tier == f := by
    unfold filteredRows
    rw [if_neg hf]
  have hmem : r ∈ filteredRows f rows ↔ r ∈ rows ∧ r.risk_tier = f := by
    rw [heq, List.mem_filter]
    simp
  refine ⟨by simp [filteredRows], heq, ?_, hmem, ?_⟩
  · rw [heq]
    exact List.filter_sublist rows
  · intro _ hnt hfmem hin
    exact hnt ((hmem.mp hin).2 ▸ hfmem)

/-- C10, witness: three concrete rows (tiers `"high"`, `"low"`, `"weird"`)
with the `"high"` filter and the unknown-tier row. -/
theorem filteredRows_risk_filter_witness :
    filteredRows "all" sampleFrontRows = sampleFrontRows
    ∧ filteredRows "high" sampleFrontRows
        = sampleFrontRows.filter (fun row => row.risk_tier == "high")
    ∧ (filteredRows "high" sampleFrontRows).Sublist sampleFrontRows
    ∧ ((sampleFrontRows.get ⟨2, by decide⟩) ∈ filteredRows "high" sampleFrontRows
        ↔ (sampleFrontRows.get ⟨2, by decide⟩) ∈ sampleFrontRows
          ∧ (sampleFrontRows.get ⟨2, by decide⟩).risk_tier = "high")
    ∧ ((sampleFrontRows.get ⟨2, by decide⟩) ∈ sampleFrontRows →
        (sampleFrontRows.get ⟨2, by decide⟩).risk_tier
            ∉ (["low", "moderate", "high"] : List String) →
        "high" ∈ (["low", "moderate", "high"] : List String) →
        (sampleFrontRows.get ⟨2, by decide⟩) ∉ filteredRows "high" sampleFrontRows) :=
  filteredRows_risk_filter sampleFrontRows "high"
    (sampleFrontRows.get ⟨2, by decide⟩) (by decide)

end ChurnInsightLab

namespace ChurnInsightLab

/-! ## Orchestrator lemmas -/

theorem scoreAll_lengths (σ : ℚ → ℚ) (pl : FittedPipeline) (th : ℚ) (k : Nat) :
    ∀ (rows : List RawRow) (i : Nat),
      (scoreAll σ pl th k rows i).1.length
        = (rows.filter (transformOk pl.transform_spec)).length
      ∧ (scoreAll σ pl th k rows i).2.length
        = (rows.filter fun r => !transformOk pl.transform_spec r).length := by
  intro rows
  induction rows with
  | nil => intro i; simp [scoreAll]
  | cons row rest ih =>
    intro i
    rcases ht : transform row pl.transform_spec with e | vec
    · have hok : transformOk pl.transform_spec row = false := by
        simp [transformOk, ht, Except.isOk, Except.toBool]
      have hs : scoreRow σ pl th k row = .error e := by
        simp [scoreRow, ht]
      simp [scoreAll, hs, List.filter_cons, hok, ih (i + 1)]
    · have hok : transformOk pl.transform_spec row = true := by
        simp [transformOk, ht, Except.isOk, Except.toBool]
      simp [scoreAll, scoreRow, ht, List.filter_cons, hok, ih (i + 1)]

/-- C5: applied to zero scored rows, `summarize` fails with
`EmptyDatasetError` — not a division by zero — and on an empty batch the
whole request is aborted with that error before any row is scored: `run`
returns the error and no KPI object is produced. -/
theorem summarize_empty_dataset (σ : ℚ → ℚ) (pl : FittedPipeline)
    (th : ℚ) (k limit : Nat)
    (hth₀ : 0 ≤ th) (hth₁ : th ≤ 1) (hl : 1 ≤ limit) :
    summarize [] = .error .emptyDatasetError
    ∧ run σ [] pl th k limit = .error .emptyDatasetError := by
  have hth : ¬ (th < 0 ∨ 1 < th) := by
    push_neg
    exact ⟨hth₀, hth₁⟩
  have hlim : ¬ (limit = 0) := by omega
  exact ⟨by simp [summarize], by simp [run, hth, hlim, scoreAll, summarize]⟩

/-- C5, witness at the identity link, the sample pipeline, threshold
`1/2`, `k = 3` and `limit = 50`. -/
theorem summarize_empty_dataset_witness :
    summarize [] = .error .emptyDatasetError
    ∧ run idLink [] samplePipeline (1/2) 3 50 = .error .emptyDatasetError :=
  summarize_empty_dataset idLink samplePipeline (1/2) 3 50
    (by decide) (by decide) (by decide)

/-- C3: for every batch and every valid limit, the KPI summary, the global
importance and the row errors returned by `run` are independent of the
chosen `limit` (they are computed over the full scored set before
truncation), and the returned prediction list is the `limit`-entry front
of the full scored list, a subsequence preserving original row order. -/
theorem run_limit_invariant (σ : ℚ → ℚ) (rows : List RawRow)
    (pl : FittedPipeline) (th : ℚ) (k l₁ l₂ : Nat)
    (h₁ : 1 ≤ l₁) (h₂ : 1 ≤ l₂) :
    (run σ rows pl th k l₁).map PredictionResult.kpis
      = (run σ rows pl th k l₂).map PredictionResult.kpis
    ∧ (run σ rows pl th k l₁).map PredictionResult.global_importance
      = (run σ rows pl th k l₂).map PredictionResult.global_importance
    ∧ (run σ rows pl th k l₁).map PredictionResult.row_errors
      = (run σ rows pl th k l₂).map PredictionResult.row_errors
    ∧ (run σ rows pl th k l₁).map PredictionResult.predictions
      = (run σ rows pl th k l₁).map (fun _ => (scoreAll σ pl th k rows 0).1.take l₁)
    ∧ ((scoreAll σ pl th k rows 0).1.take l₁).Sublist (scoreAll σ pl th k rows 0).1 := by
  by_cases hth : th < 0 ∨ 1 < th
  · refine ⟨?_, ?_, ?_, ?_, List.take_sublist l₁ _⟩ <;> simp [run, hth, Except.map]
  · have h₁' : ¬ (l₁ = 0) := by omega
    have h₂' : ¬ (l₂ = 0) := by omega
    rcases hse : scoreAll σ pl th k rows 0 with ⟨scored, errs⟩
    rcases hsum : summarize scored with e | kpis <;>
      refine ⟨?_, ?_, ?_, ?_, List.take_sublist l₁ _⟩ <;>
        simp [run, hth, h₁', h₂', hse, hsum, Except.map]

/-- C3, witness: the ten-row sample batch with limits `2` and `7`. -/
theorem run_limit_invariant_witness :
    (run idLink sampleRows samplePipeline (1/2) 3 2).map PredictionResult.kpis
      = (run idLink sampleRows samplePipeline (1/2) 3 7).map PredictionResult.kpis
    ∧ (run idLink sampleRows samplePipeline (1/2) 3 2).map
          PredictionResult.global_importance
      = (run idLink sampleRows samplePipeline (1/2) 3 7).map
          PredictionResult.global_importance
    ∧ (run idLink sampleRows samplePipeline (1/2) 3 2).map
          PredictionResult.row_errors
      = (run idLink sampleRows samplePipeline (1/2) 3 7).map
          PredictionResult.row_errors
    ∧ (run idLink sampleRows samplePipeline (1/2) 3 2).map
          PredictionResult.predictions
      = (run idLink sampleRows samplePipeline (1/2) 3 2).map
          (fun _ => (scoreAll idLink samplePipeline (1/2) 3 sampleRows 0).1.take 2)
    ∧ ((scoreAll idLink samplePipeline (1/2) 3 sampleRows 0).1.take 2).Sublist
        (scoreAll idLink samplePipeline (1/2) 3 sampleRows 0).1 :=
  run_limit_invariant idLink sampleRows samplePipeline (1/2) 3 2 7
    (by decide) (by decide)

/-- C4: a batch with at least one valid row is not aborted by rows whose
transformation fails: `run` succeeds, its prediction list is the truncated
scored list of exactly the valid rows, each failing row contributes
exactly one `row_errors` entry, and the KPIs are computed by `summarize`
over only the valid scored rows. -/
theorem run_partial_success (σ : ℚ → ℚ) (rows : List RawRow)
    (pl : FittedPipeline) (th : ℚ) (k limit : Nat)
    (hth₀ : 0 ≤ th) (hth₁ : th ≤ 1) (hl : 1 ≤ limit)
    (hvalid : ∃ r ∈ rows, transformOk pl.transform_spec r) :
    (run σ rows pl th k limit).map PredictionResult.kpis
      = summarize (scoreAll σ pl th k rows 0).1
    ∧ (run σ rows pl th k limit).map PredictionResult.predictions
      = .ok ((scoreAll σ pl th k rows 0).1.take limit)
    ∧ (run σ rows pl th k limit).map PredictionResult.row_errors
      = .ok (scoreAll σ pl th k rows 0).2
    ∧ (scoreAll σ pl th k rows 0).1.length
      = (rows.filter (transformOk pl.transform_spec)).length
    ∧ (scoreAll σ pl th k rows 0).2.length
      = (rows.filter fun r => !transformOk pl.transform_spec r).length
    ∧ (run σ rows pl th k limit).map (fun r => r.kpis.total_customers)
      = .ok (rows.filter (transformOk pl.transform_spec)).length := by
  have hth : ¬ (th < 0 ∨ 1 < th) := by
    push_neg
    exact ⟨hth₀, hth₁⟩
  have hlim : ¬ (limit = 0) := by omega
  obtain ⟨hfst, hsnd⟩ := scoreAll_lengths σ pl th k rows 0
  have hpos : 0 < (scoreAll σ pl th k rows 0).1.length := by
    rw [hfst]
    apply List.length_pos.mpr
    obtain ⟨r, hr, hok⟩ := hvalid
    intro hnil
    have hmem := List.mem_filter.mpr ⟨hr, hok⟩
    rw [hnil] at hmem
    exact absurd hmem (List.not_mem_nil r)
  rcases hse : scoreAll σ pl th k rows 0 with ⟨scored, errs⟩
  rw [hse] at hfst hsnd hpos
  dsimp only at hfst hsnd hpos
  have hlen0 : ¬ (scored.length = 0) := by omega
  have hsum : summarize scored
      = .ok { total_customers := scored.length
              predicted_churners :=
                (scored.filter fun p => p.churn_prediction = 1).length
              predicted_churn_rate :=
                ((scored.filter fun p => p.churn_prediction = 1).length : ℚ) /
                  (scored.length : ℚ) } := by
    simp [summarize, hlen0]
  refine ⟨?_, ?_, ?_, ?_, ?_, ?_⟩
  · simp [run, hth, hlim, hse, hsum, Except.map]
  · simp [run, hth, hlim, hse, hsum, Except.map]
  · simp [run, hth, hlim, hse, hsum, Except.map]
  · exact hfst
  · exact hsnd
  · simp [run, hth, hlim, hse, hsum, Except.map, hfst]

/-- C4, witness: the ten-row sample batch in which exactly one row is
missing the required column. -/
theorem run_partial_success_witness :
    (run idLink sampleRows samplePipeline (1/2) 3 50).map PredictionResult.kpis
      = summarize (scoreAll idLink samplePipeline (1/2) 3 sampleRows 0).1
    ∧ (run idLink sampleRows samplePipeline (1/2) 3 50).map
          PredictionResult.predictions
      = .ok ((scoreAll idLink samplePipeline (1/2) 3 sampleRows 0).1.take 50)
    ∧ (run idLink sampleRows samplePipeline (1/2) 3 50).map
          PredictionResult.row_errors
      = .ok (scoreAll idLink samplePipeline (1/2) 3 sampleRows 0).2
    ∧ (scoreAll idLink samplePipeline (1/2) 3 sampleRows 0).1.length
      = (sampleRows.filter (transformOk samplePipeline.transform_spec)).length
    ∧ (scoreAll idLink samplePipeline (1/2) 3 sampleRows 0).2.length
      = (sampleRows.filter fun r =>
          !transformOk samplePipeline.transform_spec r).length
    ∧ (run idLink sampleRows samplePipeline (1/2) 3 50).map
          (fun r => r.kpis.total_customers)
      = .ok (sampleRows.filter (transformOk samplePipeline.transform_spec)).length :=
  run_partial_success idLink sampleRows samplePipeline (1/2) 3 50
    (by decide) (by decide) (by decide) (by decide)

/-- C9: every predict request built by the frontend's `onPredict` fixes
`threshold=0.5`, `top_k=3`, `include_drivers=true` and
`include_predictions=true`; only the `limit` parameter varies, over the
user-selectable values `{25, 50, 100, 200}` with initial value `50` — the
decision threshold and `k` cannot be changed from the UI. -/
theorem onPredict_query_fixed (base : String) (l : Nat)
    (hl : l ∈ limitOptions) :
    initialLimit = 50
    ∧ limitOptions = [25, 50, 100, 200]
    ∧ initialLimit ∈ limitOptions
    ∧ buildPredictUrl base l = base ++ "/predict/churn?" ++ predictQuery l
    ∧ readQuery (predictQuery l)
        = [("threshold", "0.5"), ("top_k", "3"), ("limit", toString l),
           ("include_drivers", "true"), ("include_predictions", "true")] := by
  refine ⟨rfl, rfl, by decide, rfl, ?_⟩
  simp only [limitOptions, List.mem_cons, List.not_mem_nil, or_false] at hl
  rcases hl with rfl | rfl | rfl | rfl <;> decide

/-- C9, witness at the default API base and the initial limit `50`. -/
theorem onPredict_query_fixed_witness :
    initialLimit = 50
    ∧ limitOptions = [25, 50, 100, 200]
    ∧ initialLimit ∈ limitOptions
    ∧ buildPredictUrl "http://127.0.0.1:8000" 50
        = "http://127.0.0.1:8000" ++ "/predict/churn?" ++ predictQuery 50
    ∧ readQuery (predictQuery 50)
        = [("threshold", "0.5"), ("top_k", "3"), ("limit", toString 50),
           ("include_drivers", "true"), ("include_predictions", "true")] :=
  onPredict_query_fixed "http://127.0.0.1:8000" 50 (by decide)

end ChurnInsightLab
